import Mathlib

/-!
Shallow embedding of `iniload.h`, a single-header INI-file parser, together
with theorems checking its natural-language specification.

The C code reads the whole file into a buffer, appends one NUL
terminator, and runs a byte-driven state machine (`ini_load`).  Here the
file contents are a `List Char`; `loadIni` runs the same state machine over
`input ++ ['\x00']`.  Heap allocation (`malloc`/`realloc`) is modelled as
always succeeding, which is the only behaviour free of undefined behaviour
in the C; the one place where this matters is the capacity-growth path
of `__ini_add_key`, whose C code returns failure *on successful* realloc
(`if (new_ptr) { return 0; }`) — that deterministic behaviour is kept.
-/

/-- `#define INILOAD_NAME_MAXLEN 128` -/
def INILOAD_NAME_MAXLEN : Nat := 128

/-- `#define INILOAD_INITIAL_CAP 16` -/
def INILOAD_INITIAL_CAP : Nat := 16

/-- `enum ini_key_type`: the three supported key types. -/
inductive IniKeyType where
  | INI_KEY_INT
  | INI_KEY_FLOAT
  | INI_KEY_STRING
deriving DecidableEq, Repr

/-- `union value` of `struct ini_key`, made a tagged sum.  In the C the
union is only ever read through the arm selected by the `type` tag of the
key,
so the extra tag carried here is never observable. -/
inductive IniValue where
  | intVal (v : Int)
  | floatVal (v : Float)
  | stringVal (v : String)
deriving Repr

/-- Read of the `int_val` union arm.  In C this read is only performed
under a `type == INI_KEY_INT` guard; the other arms are junk values. -/
def IniValue.asInt : IniValue → Int
  | .intVal v => v
  | _ => 0

/-- Read of the `float_val` union arm (guarded by `type == INI_KEY_FLOAT`). -/
def IniValue.asFloat : IniValue → Float
  | .floatVal v => v
  | _ => 0

/-- Read of the `string_val` union arm (guarded by `type == INI_KEY_STRING`). -/
def IniValue.asString : IniValue → String
  | .stringVal v => v
  | _ => ""

/-- `struct ini_key`: name, type tag, value. -/
structure IniKey where
  name : String
  type : IniKeyType
  value : IniValue
deriving Repr

/-- `struct ini_section`: name plus the key array.  `keys` holds the
`num_keys` live entries of `ptr_keys`; `cap_keys` is kept because
`__ini_add_key` compares `num_keys` against it. -/
structure IniSection where
  name : String
  keys : List IniKey
  cap_keys : Nat
deriving Repr

/-- `struct ini_file`: the section array.  `sections` holds the
`num_sections` live entries of `ptr_sections`. -/
structure IniFile where
  sections : List IniSection
  cap_sections : Nat
deriving Repr

/-- `__ini_add_section`: grow the section array if full (realloc modelled
as succeeding), then append a fresh section with `num_keys = 0` and
`cap_keys = INILOAD_INITIAL_CAP`.  Returns the updated file and the index
of the new section (the C returns a pointer to it). -/
def iniAddSection (ini : IniFile) (section_name : String) : IniFile × Nat :=
  let cap2 := if ini.sections.length = ini.cap_sections
              then ini.cap_sections * 2 else ini.cap_sections
  ({ sections := ini.sections ++
       [{ name := section_name, keys := [], cap_keys := INILOAD_INITIAL_CAP }],
     cap_sections := cap2 },
   ini.sections.length)

/-- `__ini_add_key`.  When `num_keys == cap_keys` the C calls `realloc`;
on success it executes `if (new_ptr) { return 0; }` — reporting failure
and leaving the section unchanged, before `ptr_keys`/`cap_keys` are ever
updated.  (On realloc *failure* the C would write through a null pointer,
undefined behaviour; with allocation modelled as succeeding that branch is
unreachable.)  Otherwise the key is appended and 1 (`true`) returned. -/
def iniAddKey (sec : IniSection) (key_name : String) (t : IniKeyType)
    (v : IniValue) : IniSection × Bool :=
  if sec.keys.length = sec.cap_keys then
    (sec, false)
  else
    ({ sec with keys := sec.keys ++ [{ name := key_name, type := t, value := v }] },
     true)

/-- `__ini_add_key` applied through the `curr_section` pointer, modelled as
an index into the section array (it always points at the most recently
added section). -/
def iniFileAddKey (ini : IniFile) (idx : Nat) (key_name : String)
    (t : IniKeyType) (v : IniValue) : IniFile × Bool :=
  match ini.sections[idx]? with
  | none => (ini, false)
  | some sec =>
    let r := iniAddKey sec key_name t v
    ({ ini with sections := ini.sections.set idx r.1 }, r.2)

/-- The `enum` of parser states local to `ini_load`. -/
inductive IniParseState where
  | INIPS_NONE
  | INIPS_COMMENT
  | INIPS_SECTION_NAME
  | INIPS_AFTER_SECTION_NAME
  | INIPS_KEY_NAME
  | INIPS_AFTER_KEY_NAME
  | INIPS_BEFORE_KEY_VALUE
  | INIPS_KEY_VALUE
deriving DecidableEq, Repr

/-- The mutable locals of the scan loop of `ini_load`: the document built
(`ptr`), the name accumulator `curr_str` (its live prefix `[0, curr_pos)`),
the value accumulator `val_str`, the current-section pointer (an index),
the `bad_syntax` and `alloc_error` flags, the state, and the `quotes`
flag.  `allocErr` models `alloc_error`; with allocation succeeding it is
never set. -/
structure IniLoadState where
  ptr : IniFile
  curr_str : List Char
  val_str : List Char
  curr_section : Option Nat
  bad : Bool
  allocErr : Bool
  state : IniParseState
  quotes : Bool
deriving Repr

/-- One iteration of the `switch (state)` of `ini_load` on byte `c`. -/
def iniStep (st : IniLoadState) (c : Char) : IniLoadState :=
  match st.state with
  | .INIPS_NONE =>
    if c = '\n' ∨ c = '\r' ∨ c = ' ' ∨ c = '\t' ∨ c = '\x00' then
      st
    else if c = ';' ∨ c = '#' then
      { st with state := .INIPS_COMMENT }
    else if c = '[' then
      { st with state := .INIPS_SECTION_NAME, curr_str := [] }
    else
      { st with state := .INIPS_KEY_NAME, curr_str := [c] }
  | .INIPS_COMMENT =>
    if c = '\n' ∨ c = '\r' ∨ c = '\x00' then
      { st with state := .INIPS_NONE }
    else
      st
  | .INIPS_SECTION_NAME =>
    if c = ']' then
      if st.curr_str.length > INILOAD_NAME_MAXLEN then
        { st with bad := true }
      else
        let r := iniAddSection st.ptr (String.mk st.curr_str)
        { st with ptr := r.1, curr_section := some r.2,
                  state := .INIPS_AFTER_SECTION_NAME }
    else if c = '[' ∨ c = '=' ∨ c = ';' ∨ c = '#' ∨ c = '\n' ∨ c = '\r' ∨
            c = '\x00' then
      { st with bad := true }
    else
      { st with curr_str := st.curr_str ++ [c] }
  | .INIPS_AFTER_SECTION_NAME =>
    if c = '\n' ∨ c = '\r' ∨ c = '\x00' then
      { st with state := .INIPS_NONE }
    else
      { st with bad := true }
  | .INIPS_KEY_NAME =>
    if c = ' ' ∨ c = '\t' ∨ c = '=' then
      { st with state := .INIPS_AFTER_KEY_NAME }
    else if c = '\n' ∨ c = '\r' ∨ c = '\x00' ∨ c = '[' ∨ c = ']' then
      { st with bad := true }
    else
      { st with curr_str := st.curr_str ++ [c] }
  | .INIPS_AFTER_KEY_NAME =>
    if c = ' ' ∨ c = '\t' then
      st
    else if c = '=' then
      { st with state := .INIPS_BEFORE_KEY_VALUE, val_str := [], quotes := false }
    else
      { st with bad := true }
  | .INIPS_BEFORE_KEY_VALUE =>
    if c = ' ' ∨ c = '\t' then
      st
    else if c = '\n' ∨ c = '\r' ∨ c = '\x00' ∨ c = '[' ∨ c = ']' then
      { st with bad := true }
    else if c = '\"' then
      { st with quotes := true, state := .INIPS_KEY_VALUE }
    else
      { st with val_str := st.val_str ++ [c], state := .INIPS_KEY_VALUE }
  | .INIPS_KEY_VALUE =>
    if c = '\n' ∨ c = '\r' ∨ c = '\x00' ∨ c = '\"' then
      if c = '\"' ∧ st.quotes = false then
        { st with bad := true }
      else
        let p := match st.curr_section with
                 | some idx => (st.ptr, idx)
                 | none => iniAddSection st.ptr ""
        let r := iniFileAddKey p.1 p.2 (String.mk st.curr_str) .INI_KEY_STRING
                   (.stringVal (String.mk st.val_str))
        { st with ptr := r.1, curr_section := some p.2, state := .INIPS_NONE }
    else if c = '[' ∨ c = ']' ∨ c = '=' then
      if st.quotes = false then
        { st with bad := true }
      else
        { st with val_str := st.val_str ++ [c] }
    else
      { st with val_str := st.val_str ++ [c] }

/-- The scan loop `for (i = 0; i < file_size + 1 && !bad_syntax &&
!alloc_error; i++)`: run `iniStep` over the bytes, stopping as soon as a
flag is set. -/
def iniRun : IniLoadState → List Char → IniLoadState
  | st, [] => st
  | st, c :: rest => if st.bad ∨ st.allocErr then st else iniRun (iniStep st c) rest

/-- The locals of `ini_load` at the top of the scan loop. -/
def iniInit : IniLoadState :=
  { ptr := { sections := [], cap_sections := INILOAD_INITIAL_CAP },
    curr_str := [], val_str := [], curr_section := none,
    bad := false, allocErr := false, state := .INIPS_NONE, quotes := false }

/-- `ini_load`, given the contents of the file (the up-front reading and
the allocation of the scratch buffers are outside the model).  The C
appends one NUL terminator and scans `file_size + 1` bytes; at the end it
returns `NULL` when `bad_syntax || alloc_error` and the document
otherwise. -/
def loadIni (input : List Char) : Option IniFile :=
  let fin := iniRun iniInit (input ++ ['\x00'])
  if fin.bad ∨ fin.allocErr then none else some fin.ptr

/-- `loadIni` on the characters of a string. -/
def loadIniStr (s : String) : Option IniFile :=
  loadIni s.data

/-- `ini_num_sections`. -/
def ini_num_sections (ini : IniFile) : Nat :=
  ini.sections.length

/-- The scan loop of `ini_has_section`. -/
def iniHasSectionGo : List IniSection → String → Bool
  | [], _ => false
  | s :: rest, sn => if s.name = sn then true else iniHasSectionGo rest sn

/-- `ini_has_section`. -/
def ini_has_section (ini : IniFile) (section_name : String) : Bool :=
  iniHasSectionGo ini.sections section_name

/-- The scan loop of `ini_num_keys`: returns at the *first* section whose
name matches. -/
def iniNumKeysGo : List IniSection → String → Nat
  | [], _ => 0
  | s :: rest, sn => if s.name = sn then s.keys.length else iniNumKeysGo rest sn

/-- `ini_num_keys`. -/
def ini_num_keys (ini : IniFile) (section_name : String) : Nat :=
  iniNumKeysGo ini.sections section_name

/-- The inner loop shared by the lookup functions: first key with the
given name, if any. -/
def findKeyIn : List IniKey → String → Option IniKey
  | [], _ => none
  | k :: rest, kn => if k.name = kn then some k else findKeyIn rest kn

/-- The outer loop of `ini_has_key`.  Note the C keeps scanning *further*
sections with the same name when the inner loop finds nothing. -/
def iniHasKeyGo : List IniSection → String → String → Bool
  | [], _, _ => false
  | s :: rest, sn, kn =>
    if s.name = sn then
      if (findKeyIn s.keys kn).isSome then true else iniHasKeyGo rest sn kn
    else iniHasKeyGo rest sn kn

/-- `ini_has_key`. -/
def ini_has_key (ini : IniFile) (section_name key_name : String) : Bool :=
  iniHasKeyGo ini.sections section_name key_name

/-- Inner loop of `ini_get_int`: `some r` when the loop returned `r`,
`none` when it fell through to the next section. -/
def iniGetIntKeys : List IniKey → String → Int → Option Int
  | [], _, _ => none
  | k :: rest, kn, d =>
    if k.name = kn then
      some (if k.type = .INI_KEY_INT then k.value.asInt else d)
    else iniGetIntKeys rest kn d

/-- Outer loop of `ini_get_int`. -/
def iniGetIntGo : List IniSection → String → String → Int → Int
  | [], _, _, d => d
  | s :: rest, sn, kn, d =>
    if s.name = sn then
      match iniGetIntKeys s.keys kn d with
      | some r => r
      | none => iniGetIntGo rest sn kn d
    else iniGetIntGo rest sn kn d

/-- `ini_get_int`. -/
def ini_get_int (ini : IniFile) (section_name key_name : String)
    (default_val : Int) : Int :=
  iniGetIntGo ini.sections section_name key_name default_val

/-- Inner loop of `ini_get_float`. -/
def iniGetFloatKeys : List IniKey → String → Float → Option Float
  | [], _, _ => none
  | k :: rest, kn, d =>
    if k.name = kn then
      some (if k.type = .INI_KEY_FLOAT then k.value.asFloat else d)
    else iniGetFloatKeys rest kn d

/-- Outer loop of `ini_get_float`. -/
def iniGetFloatGo : List IniSection → String → String → Float → Float
  | [], _, _, d => d
  | s :: rest, sn, kn, d =>
    if s.name = sn then
      match iniGetFloatKeys s.keys kn d with
      | some r => r
      | none => iniGetFloatGo rest sn kn d
    else iniGetFloatGo rest sn kn d

/-- `ini_get_float`. -/
def ini_get_float (ini : IniFile) (section_name key_name : String)
    (default_val : Float) : Float :=
  iniGetFloatGo ini.sections section_name key_name default_val

/-- Inner loop of `ini_get_string`. -/
def iniGetStringKeys : List IniKey → String → String → Option String
  | [], _, _ => none
  | k :: rest, kn, d =>
    if k.name = kn then
      some (if k.type = .INI_KEY_STRING then k.value.asString else d)
    else iniGetStringKeys rest kn d

/-- Outer loop of `ini_get_string`. -/
def iniGetStringGo : List IniSection → String → String → String → String
  | [], _, _, d => d
  | s :: rest, sn, kn, d =>
    if s.name = sn then
      match iniGetStringKeys s.keys kn d with
      | some r => r
      | none => iniGetStringGo rest sn kn d
    else iniGetStringGo rest sn kn d

/-- `ini_get_string`. -/
def ini_get_string (ini : IniFile) (section_name key_name : String)
    (default_val : String) : String :=
  iniGetStringGo ini.sections section_name key_name default_val

/-- The key a lookup resolves to, stated once: the first key carrying the
requested name among the sections carrying the requested name, in document
order.  (This is the search order of the code: the getters and `ini_has_key`
keep scanning later same-named sections when an earlier one lacks the
key.) -/
def findFirstMatchingKey : List IniSection → String → String → Option IniKey
  | [], _, _ => none
  | s :: rest, sn, kn =>
    if s.name = sn then
      match findKeyIn s.keys kn with
      | some k => some k
      | none => findFirstMatchingKey rest sn kn
    else findFirstMatchingKey rest sn kn

/-- Invariant of every section array the parser builds (with allocation
succeeding): each section still has its initial capacity, holds at most
that many keys, and every key it holds is string-typed — `ini_load` passes
`INI_KEY_STRING` on every `__ini_add_key` call. -/
def goodSec (sec : IniSection) : Prop :=
  sec.cap_keys = INILOAD_INITIAL_CAP ∧ sec.keys.length ≤ INILOAD_INITIAL_CAP ∧
    ∀ k ∈ sec.keys, k.type = .INI_KEY_STRING

/-- The empty document, used as a harmless default when projecting a
concrete document out of `Option IniFile`. -/
def emptyIniFile : IniFile :=
  { sections := [], cap_sections := INILOAD_INITIAL_CAP }

/-- A file of 17 identical key lines `k = v` — one more key than
`INILOAD_INITIAL_CAP` — all landing in the anonymous section. -/
def seventeenKeyInput : List Char :=
  (List.replicate 17 ['k', ' ', '=', ' ', 'v', '\n']).flatten

/-- The document `ini_load` returns on `seventeenKeyInput`. -/
def seventeenKeyDoc : IniFile :=
  (loadIni seventeenKeyInput).getD emptyIniFile

/-- Its single (anonymous) section, which sits exactly at capacity. -/
def seventeenKeySec : IniSection :=
  seventeenKeyDoc.sections.headD { name := "", keys := [], cap_keys := 0 }

/-- The document loaded from the file `k = "42"`. -/
def quoted42Doc : IniFile :=
  (loadIniStr "k = \"42\"").getD emptyIniFile

/-- A parser state sitting in `INIPS_AFTER_SECTION_NAME`, as reached right
after the closing bracket of a section header. -/
def stAfterSec : IniLoadState :=
  { iniInit with state := .INIPS_AFTER_SECTION_NAME }

/-- A parser state capturing an unquoted value (`quotes = 0`). -/
def stKeyVal : IniLoadState :=
  { iniInit with state := .INIPS_KEY_VALUE }

theorem goodSec_addSection (ini : IniFile) (n : String)
    (h : ∀ s ∈ ini.sections, goodSec s) :
    ∀ s ∈ (iniAddSection ini n).1.sections, goodSec s := by
  intro s hs
  simp only [iniAddSection, List.mem_append, List.mem_singleton] at hs
  rcases hs with hs | rfl
  · exact h s hs
  · exact ⟨rfl, by simp, by simp⟩

theorem goodSec_addKey (sec : IniSection) (kn : String) (v : IniValue)
    (h : goodSec sec) :
    goodSec (iniAddKey sec kn .INI_KEY_STRING v).1 := by
  obtain ⟨hc, hl, ht⟩ := h
  unfold iniAddKey
  split
  · exact ⟨hc, hl, ht⟩
  · rename_i hne
    rw [hc] at hne
    refine ⟨hc, ?_, ?_⟩
    · simp only [List.length_append, List.length_cons, List.length_nil]
      omega
    · intro k hk
      rcases List.mem_append.mp hk with hk | hk
      · exact ht k hk
      · rw [List.mem_singleton] at hk
        subst hk
        rfl

theorem goodSec_fileAddKey (ini : IniFile) (idx : Nat) (kn : String)
    (v : IniValue) (h : ∀ s ∈ ini.sections, goodSec s) :
    ∀ s ∈ (iniFileAddKey ini idx kn .INI_KEY_STRING v).1.sections, goodSec s := by
  unfold iniFileAddKey
  split
  · exact h
  · rename_i sec hsec
    intro s hs
    simp only at hs
    rcases List.mem_or_eq_of_mem_set hs with hs | rfl
    · exact h s hs
    · exact goodSec_addKey sec kn v (h sec (List.getElem?_mem hsec))

theorem goodSec_step (st : IniLoadState) (c : Char)
    (h : ∀ s ∈ st.ptr.sections, goodSec s) :
    ∀ s ∈ (iniStep st c).ptr.sections, goodSec s := by
  unfold iniStep
  split <;> split_ifs <;> (try exact h)
  · exact goodSec_addSection st.ptr (String.mk st.curr_str) h
  · cases hcs : st.curr_section with
    | some idx =>
      simp only [hcs]
      exact goodSec_fileAddKey st.ptr idx (String.mk st.curr_str)
        (.stringVal (String.mk st.val_str)) h
    | none =>
      simp only [hcs]
      exact goodSec_fileAddKey (iniAddSection st.ptr "").1 (iniAddSection st.ptr "").2
        (String.mk st.curr_str) (.stringVal (String.mk st.val_str))
        (goodSec_addSection st.ptr "" h)

theorem goodSec_run (input : List Char) : ∀ (st : IniLoadState),
    (∀ s ∈ st.ptr.sections, goodSec s) →
    ∀ s ∈ (iniRun st input).ptr.sections, goodSec s := by
  induction input with
  | nil => intro st h; exact h
  | cons c rest ih =>
    intro st h
    unfold iniRun
    split
    · exact h
    · exact ih _ (goodSec_step st c h)

theorem loadIni_good (input : List Char) (d : IniFile)
    (h : loadIni input = some d) : ∀ s ∈ d.sections, goodSec s := by
  simp only [loadIni] at h
  split at h
  · exact absurd h (by simp)
  · have hgood := goodSec_run (input ++ ['\x00']) iniInit (by intro s hs; simp [iniInit] at hs)
    rw [Option.some.injEq] at h
    rw [← h]
    exact hgood

theorem iniGetIntKeys_eq (keys : List IniKey) (kn : String) (d : Int) :
    iniGetIntKeys keys kn d =
      (findKeyIn keys kn).map
        (fun k => if k.type = .INI_KEY_INT then k.value.asInt else d) := by
  induction keys with
  | nil => rfl
  | cons k rest ih =>
    unfold iniGetIntKeys findKeyIn
    by_cases hk : k.name = kn
    · simp [hk]
    · simp [hk, ih]

theorem iniGetFloatKeys_eq (keys : List IniKey) (kn : String) (d : Float) :
    iniGetFloatKeys keys kn d =
      (findKeyIn keys kn).map
        (fun k => if k.type = .INI_KEY_FLOAT then k.value.asFloat else d) := by
  induction keys with
  | nil => rfl
  | cons k rest ih =>
    unfold iniGetFloatKeys findKeyIn
    by_cases hk : k.name = kn
    · simp [hk]
    · simp [hk, ih]

theorem iniGetStringKeys_eq (keys : List IniKey) (kn : String) (d : String) :
    iniGetStringKeys keys kn d =
      (findKeyIn keys kn).map
        (fun k => if k.type = .INI_KEY_STRING then k.value.asString else d) := by
  induction keys with
  | nil => rfl
  | cons k rest ih =>
    unfold iniGetStringKeys findKeyIn
    by_cases hk : k.name = kn
    · simp [hk]
    · simp [hk, ih]

theorem iniGetIntGo_eq (secs : List IniSection) (sn kn : String) (d : Int) :
    iniGetIntGo secs sn kn d =
      (match findFirstMatchingKey secs sn kn with
       | some k => if k.type = .INI_KEY_INT then k.value.asInt else d
       | none => d) := by
  induction secs with
  | nil => rfl
  | cons s rest ih =>
    unfold iniGetIntGo findFirstMatchingKey
    by_cases hs : s.name = sn
    · simp only [hs, if_true]
      rw [iniGetIntKeys_eq]
      cases hfk : findKeyIn s.keys kn with
      | none => simpa using ih
      | some k => simp
    · simp only [hs, if_false]
      exact ih

theorem iniGetFloatGo_eq (secs : List IniSection) (sn kn : String) (d : Float) :
    iniGetFloatGo secs sn kn d =
      (match findFirstMatchingKey secs sn kn with
       | some k => if k.type = .INI_KEY_FLOAT then k.value.asFloat else d
       | none => d) := by
  induction secs with
  | nil => rfl
  | cons s rest ih =>
    unfold iniGetFloatGo findFirstMatchingKey
    by_cases hs : s.name = sn
    · simp only [hs, if_true]
      rw [iniGetFloatKeys_eq]
      cases hfk : findKeyIn s.keys kn with
      | none => simpa using ih
      | some k => simp
    · simp only [hs, if_false]
      exact ih

theorem iniGetStringGo_eq (secs : List IniSection) (sn kn : String) (d : String) :
    iniGetStringGo secs sn kn d =
      (match findFirstMatchingKey secs sn kn with
       | some k => if k.type = .INI_KEY_STRING then k.value.asString else d
       | none => d) := by
  induction secs with
  | nil => rfl
  | cons s rest ih =>
    unfold iniGetStringGo findFirstMatchingKey
    by_cases hs : s.name = sn
    · simp only [hs, if_true]
      rw [iniGetStringKeys_eq]
      cases hfk : findKeyIn s.keys kn with
      | none => simpa using ih
      | some k => simp
    · simp only [hs, if_false]
      exact ih

/-- Claim C1.  The claim states that unquoted integer-shaped values are
stored integer-typed (so `ini_get_int` returns them), float-shaped values
float-typed, and that for `key=1\n[s]\nx=hello\ny=3.5\n` the typed getters
return 1 and 3.5.  The code does neither: (a) `key=1` is a syntax error —
in `INIPS_KEY_NAME` the `=` sends the parser to `INIPS_AFTER_KEY_NAME`,
which then demands a *second* `=` — so `ini_load` returns NULL on the
Scenario A file; and (b) `ini_load` passes `INI_KEY_STRING` on every
`__ini_add_key` call (no type inference), so even for the accepted file
`key = 1` the value is stored string-typed and `ini_get_int` returns the
default, and `ini_get_float` on `y = 3.5` returns the default for every
default. -/
theorem claim_C1 :
    loadIniStr "key=1\n[s]\nx=hello\ny=3.5\n" = none ∧
    (loadIniStr "key = 1\n").map (fun d => ini_get_int d "" "key" (-1))
      = some (-1) ∧
    (loadIniStr "key = 1\n").map (fun d => ini_get_string d "" "key" "?")
      = some "1" ∧
    (loadIniStr "y = 3.5\n").map
      (fun d => (findFirstMatchingKey d.sections "" "y").map (fun k => k.type))
      = some (some .INI_KEY_STRING) ∧
    (∀ df : Float, (loadIniStr "y = 3.5\n").map
      (fun d => ini_get_float d "" "y" df) = some df) :=
  ⟨rfl, rfl, rfl, rfl, fun _ => rfl⟩

/-- Claim C2.  The claim states that lookups resolve only against the
first section of a given name and that for `[a]\n[a]\nv=1\n` the getter
returns the default because the first `[a]` lacks `v`.  The code differs
twice: (a) `v=1` is a syntax error (no whitespace before `=`), so that
very file does not load at all; and (b) for the loadable variant
`[a]\n[a]\nv = 1\n` the lookup loops keep scanning *later* same-named
sections — `ini_has_key` reports the key present and `ini_get_string`
returns its value from the second `[a]` — even though `ini_num_keys`
(which does stop at the first match) reports 0 keys.  (`ini_get_int`
still returns -1 there, but only because the value is stored
string-typed.) -/
theorem claim_C2 :
    loadIniStr "[a]\n[a]\nv=1\n" = none ∧
    (loadIniStr "[a]\n[a]\nv = 1\n").map (fun d => ini_has_key d "a" "v")
      = some true ∧
    (loadIniStr "[a]\n[a]\nv = 1\n").map (fun d => ini_num_keys d "a")
      = some 0 ∧
    (loadIniStr "[a]\n[a]\nv = 1\n").map (fun d => ini_get_string d "a" "v" "?")
      = some "1" ∧
    (loadIniStr "[a]\n[a]\nv = 1\n").map (fun d => ini_get_int d "a" "v" (-1))
      = some (-1) :=
  ⟨rfl, rfl, rfl, rfl, rfl⟩

/-- Claim C3.  The claim states ini_load is all-or-nothing: any syntax or
allocation/growth failure during the scan yields no document.  The code
violates this: on the 17th key of a section the capacity-growth path of
`__ini_add_key` runs and reports failure (its realloc-success branch is
`if (new_ptr) return 0;`), `ini_load` ignores the returned 0, the key is
silently dropped, and a *partial* 16-key document is returned. -/
theorem claim_C3 :
    (loadIni seventeenKeyInput).isSome = true ∧
    (loadIni seventeenKeyInput).map (fun d => ini_num_keys d "") = some 16 ∧
    iniAddKey seventeenKeySec "k" .INI_KEY_STRING (.stringVal "v")
      = (seventeenKeySec, false) :=
  ⟨rfl, rfl, rfl⟩

set_option maxRecDepth 4000

/-- Claim C4.  Section names behave as claimed: length 128
(`INILOAD_NAME_MAXLEN`) is accepted and length 129 is rejected.  Key
names do not: `ini_load` never checks the key-name length (in the C,
`__ini_add_key` then `strcpy`s past the 129-byte `name` buffer —
undefined behaviour), so a 129-character key name is accepted and the
load succeeds, while the claim — and `test_long_key_name` in `tests.c` —
require the load to fail. -/
theorem claim_C4 :
    (loadIni ('[' :: (List.replicate 128 'a' ++ [']', '\n']))).isSome = true ∧
    loadIni ('[' :: (List.replicate 129 'a' ++ [']', '\n'])) = none ∧
    (loadIni (List.replicate 128 'a' ++ [' ', '=', ' ', 'v', '\n'])).isSome
      = true ∧
    (loadIni (List.replicate 129 'a' ++ [' ', '=', ' ', 'v', '\n'])).map
      (fun d => ini_has_key d "" (String.mk (List.replicate 129 'a')))
      = some true :=
  ⟨rfl, rfl, rfl, rfl⟩

/-- Claim C5.  Quoted values are always stored string-typed: in fact every
key of every loaded document is string-typed (ini_load passes
INI_KEY_STRING on every add), and for the file `k = "42"` the string
getter returns the text between the quotes verbatim while `ini_get_int`
returns the caller-supplied default -1. -/
theorem claim_C5 :
    (∀ (input : List Char) (d : IniFile), loadIni input = some d →
      d.sections.all
        (fun sec => sec.keys.all (fun k => k.type == .INI_KEY_STRING)) = true) ∧
    (loadIniStr "k = \"42\"").map (fun d => ini_get_string d "" "k" "?")
      = some "42" ∧
    (loadIniStr "k = \"42\"").map (fun d => ini_get_int d "" "k" (-1))
      = some (-1) := by
  refine ⟨?_, rfl, rfl⟩
  intro input d h
  rw [List.all_eq_true]
  intro sec hsec
  rw [List.all_eq_true]
  intro k hk
  have ht := (loadIni_good input d h sec hsec).2.2 k hk
  simp [ht]

/-- Witness for claim C5 at the concrete file `k = "42"`. -/
theorem claim_C5_witness :
    quoted42Doc.sections.all
      (fun sec => sec.keys.all (fun k => k.type == .INI_KEY_STRING)) = true :=
  claim_C5.1 ("k = \"42\"".data) quoted42Doc rfl

/-- Claim C6.  Each typed getter resolves the lookup to
`findFirstMatchingKey` (the first key of the requested name among the
sections of the requested name, in document order — the search order the
code implements) and then returns the stored value exactly when the
stored type tag equals the type of the getter, and the caller-supplied
default in every other case (no section match, no key match, or a type
mismatch); the getters are total functions and signal no error. -/
theorem claim_C6 (doc : IniFile) (sn kn : String) (di : Int) (df : Float)
    (ds : String) :
    (ini_get_int doc sn kn di =
      (match findFirstMatchingKey doc.sections sn kn with
       | some k => if k.type = .INI_KEY_INT then k.value.asInt else di
       | none => di)) ∧
    (ini_get_float doc sn kn df =
      (match findFirstMatchingKey doc.sections sn kn with
       | some k => if k.type = .INI_KEY_FLOAT then k.value.asFloat else df
       | none => df)) ∧
    (ini_get_string doc sn kn ds =
      (match findFirstMatchingKey doc.sections sn kn with
       | some k => if k.type = .INI_KEY_STRING then k.value.asString else ds
       | none => ds)) :=
  ⟨iniGetIntGo_eq doc.sections sn kn di,
   iniGetFloatGo_eq doc.sections sn kn df,
   iniGetStringGo_eq doc.sections sn kn ds⟩

/-- Counterexample to claim C7 as stated: a trailing space between the
closing bracket and the newline is a syntax error, so `[s] \n` does not
load (the claim says it loads successfully). -/
theorem claim_C7_cex : loadIniStr "[s] \n" = none := rfl

/-- Claim C7 as amended: in `INIPS_AFTER_SECTION_NAME` only a newline,
carriage return or end of input returns the parser to the idle state;
*every* other byte — whitespace included — sets `bad_syntax`.  Hence
`[s]\n` loads and `[s] \n` does not. -/
theorem claim_C7_amended :
    (∀ (st : IniLoadState) (c : Char), st.state = .INIPS_AFTER_SECTION_NAME →
      iniStep st c = if c = '\n' ∨ c = '\r' ∨ c = '\x00'
                     then { st with state := .INIPS_NONE }
                     else { st with bad := true }) ∧
    (loadIniStr "[s]\n").isSome = true ∧
    loadIniStr "[s] \n" = none := by
  refine ⟨?_, rfl, rfl⟩
  intro st c h
  unfold iniStep
  rw [h]

/-- Witness for claim C7 at a concrete state and byte: a space after the
closing bracket sets `bad_syntax`. -/
theorem claim_C7_witness :
    iniStep stAfterSec ' ' = { stAfterSec with bad := true } := by
  have h := claim_C7_amended.1 stAfterSec ' ' rfl
  rw [if_neg (by decide)] at h
  exact h

/-- Counterexample to claim C8 as stated: the file `k=ab"cd` does not load
(the claim says it loads with the quote character stored in the value). -/
theorem claim_C8_cex : loadIniStr "k=ab\"cd" = none := rfl

/-- Claim C8 as amended: while capturing an *unquoted* value the bytes
`[`, `]`, `=` *and* `"` are syntax errors (the code rejects a double
quote that did not open the value), newline, carriage return and end of
input terminate the value, and every other byte — `;`, `#` and interior
whitespace included — is accumulated verbatim.  (`k=ab"cd` additionally
fails before the value is even reached: with no whitespace before `=`
the `=` terminates the key name and a second `=` is then required.)
The file `k = ab;# c` loads with value `ab;# c`. -/
theorem claim_C8_amended :
    (∀ (st : IniLoadState) (c : Char), st.state = .INIPS_KEY_VALUE →
      st.quotes = false → (c = '\"' ∨ c = '[' ∨ c = ']' ∨ c = '=') →
      iniStep st c = { st with bad := true }) ∧
    (∀ (st : IniLoadState) (c : Char), st.state = .INIPS_KEY_VALUE →
      st.quotes = false → c ≠ '\"' → c ≠ '[' → c ≠ ']' → c ≠ '=' →
      c ≠ '\n' → c ≠ '\r' → c ≠ '\x00' →
      iniStep st c = { st with val_str := st.val_str ++ [c] }) ∧
    (loadIniStr "k = ab;# c\n").map (fun d => ini_get_string d "" "k" "?")
      = some "ab;# c" ∧
    loadIniStr "k = ab\"cd" = none := by
  refine ⟨?_, ?_, rfl, rfl⟩
  · intro st c h hq hc
    obtain ⟨ptr, cs, vs, csec, b, ae, stt, q⟩ := st
    dsimp only at h hq
    subst h
    subst hq
    rcases hc with rfl | rfl | rfl | rfl <;> rfl
  · intro st c h hq h1 h2 h3 h4 h5 h6 h7
    obtain ⟨ptr, cs, vs, csec, b, ae, stt, q⟩ := st
    dsimp only at h hq
    subst h
    subst hq
    have hA : ¬(c = '\n' ∨ c = '\r' ∨ c = '\x00' ∨ c = '\"') := by
      simp [h1, h5, h6, h7]
    have hB : ¬(c = '[' ∨ c = ']' ∨ c = '=') := by
      simp [h2, h3, h4]
    dsimp only [iniStep]
    rw [if_neg hA, if_neg hB]

/-- Witness for claim C8 at a concrete state and bytes: in an unquoted
value a double quote sets `bad_syntax` while the letter x is
accumulated. -/
theorem claim_C8_witness :
    iniStep stKeyVal '\"' = { stKeyVal with bad := true } ∧
    iniStep stKeyVal 'x' = { stKeyVal with val_str := stKeyVal.val_str ++ ['x'] } :=
  ⟨claim_C8_amended.1 stKeyVal '\"' rfl rfl (Or.inl rfl),
   claim_C8_amended.2.1 stKeyVal 'x' rfl rfl (by decide) (by decide) (by decide)
     (by decide) (by decide) (by decide) (by decide)⟩

/-- Claim C9.  Every section of every document `ini_load` returns holds at
most `INILOAD_INITIAL_CAP` (16) keys: the capacity-growth path of
`__ini_add_key` always reports failure (it returns 0 when the realloc
succeeds), `ini_load` ignores that result and drops the key, and the load
still succeeds — on a file with 17 key lines for one section,
`ini_num_keys` returns 16. -/
theorem claim_C9 :
    (∀ (input : List Char) (d : IniFile), loadIni input = some d →
      ∀ sec ∈ d.sections, sec.keys.length ≤ INILOAD_INITIAL_CAP) ∧
    (loadIni seventeenKeyInput).map (fun d => ini_num_keys d "") = some 16 := by
  refine ⟨?_, rfl⟩
  intro input d h sec hsec
  exact (loadIni_good input d h sec hsec).2.1

/-- Witness for claim C9 at the concrete 17-key file. -/
theorem claim_C9_witness :
    seventeenKeySec.keys.length ≤ INILOAD_INITIAL_CAP :=
  claim_C9.1 seventeenKeyInput seventeenKeyDoc rfl seventeenKeySec
    (List.mem_cons_self seventeenKeySec [])

/-- Claim C10.  Loading an empty file succeeds and yields the document
with zero sections; `ini_num_sections` returns 0, `ini_has_section` is
false for every name (the empty string included) and every typed getter
returns its caller-supplied default. -/
theorem claim_C10 :
    loadIniStr "" = some emptyIniFile ∧
    (loadIniStr "").map (fun d => ini_num_sections d) = some 0 ∧
    (∀ name : String, (loadIniStr "").map (fun d => ini_has_section d name)
      = some false) ∧
    (∀ (sn kn : String) (di : Int), (loadIniStr "").map
      (fun d => ini_get_int d sn kn di) = some di) ∧
    (∀ (sn kn : String) (df : Float), (loadIniStr "").map
      (fun d => ini_get_float d sn kn df) = some df) ∧
    (∀ (sn kn ds : String), (loadIniStr "").map
      (fun d => ini_get_string d sn kn ds) = some ds) :=
  ⟨rfl, rfl, fun _ => rfl, fun _ _ _ => rfl, fun _ _ _ => rfl, fun _ _ _ => rfl⟩
